import Mathlib

/-!
Verification of the exoplanet occurrence-rate notebook (post.ipynb).

The notebook reproduces the Burke et al. (2015) population inference: an
analytic per-star detection-completeness model (transit duration, semi-major
axis, transit depth, MES, window function, geometric transit probability),
a double power-law occurrence-rate model, and a Poisson-process
log-likelihood with uniform box priors.

The Python/numpy code is shallowly embedded over the real numbers: numpy
float arithmetic becomes real arithmetic, `np.interp` becomes a recursive
linear-interpolation function on ordered lists of pairs, and the scipy
frozen distribution `gamma(4.65, loc=0.0, scale=0.98).cdf` is abstracted as
an explicit function parameter `gammaCdf` applied to the frozen parameter
triple `pgam = (4.65, 0, 0.98)` (its numerics live in an external library;
theorems that need facts about it take them as hypotheses).  Python values
that are IEEE non-finite (`-inf` results of `lnlike` / `lnprob`) are
embedded in `EReal`, with the `np.isfinite` guard rendered as the exact
condition under which the float computation goes non-finite (a non-positive
density under a logarithm).
-/

noncomputable section

open scoped Classical

namespace Exopop

/-- Star record: the stellar-catalog columns consumed by the completeness
model.  The CDPP noise curve and the MES-threshold curve are carried as
ordered lists of (duration-threshold, value) pairs, pairing the notebook's
global `cdpp_vals` / `mesthres_vals` duration grids with the per-star
column values. -/
structure Star where
  radius : ℝ
  mass : ℝ
  dataspan : ℝ
  dutycycle : ℝ
  cdpp : List (ℝ × ℝ)
  mesthres : List (ℝ × ℝ)

/-- Embedding of `get_duration`: transit duration in the units of the input
period, Equation (1) of Burke et al. with the notebook's coefficient 0.25. -/
def get_duration (period aor e : ℝ) : ℝ :=
  0.25 * period * Real.sqrt (1 - e ^ 2) / aor

/-- Embedding of the default argument `Go4pi` of `get_a`. -/
def Go4pi : ℝ := 2945.4625385377644 / (4 * Real.pi * Real.pi)

/-- Embedding of `get_a`: semi-major axis in Solar radii from the period in
days and the stellar mass in Solar masses. -/
def get_a (period mstar : ℝ) : ℝ :=
  (Go4pi * period * period * mstar) ^ ((1 : ℝ) / 3)

/-- Embedding of `get_delta` with its default arguments `c = 1.0874`,
`s = 1.0187`: the approximate expected transit depth.  The notebook computes
`delta_max = k * k * (c + s * k)` and returns `0.84 * delta_max`. -/
def get_delta (k : ℝ) : ℝ :=
  0.84 * (k * k * (1.0874 + 1.0187 * k))

/-- Embedding of `np.interp x xp fp`, on a list of (x, y) pairs: linear
interpolation between consecutive points, clamped to the first y below the
first x and to the last y beyond the last x.  (numpy rejects an empty
table; the value 0 for `[]` is an arbitrary total-function default.) -/
def interp (x : ℝ) : List (ℝ × ℝ) → ℝ
  | [] => 0
  | [p] => p.2
  | p :: q :: rest =>
    if x ≤ p.1 then p.2
    else if x ≤ q.1 then p.2 + (q.2 - p.2) * (x - p.1) / (q.1 - p.1)
    else interp x (q :: rest)

/-- Embedding of the default argument `re = 0.009171` of `get_mes`: the
Earth radius in Solar radii. -/
def re : ℝ := 0.009171

/-- Embedding of `get_mes`: the multiple event statistic for a transit of
the given period (days), planet radius (Earth radii) and duration (hours). -/
def get_mes (star : Star) (period rp tau : ℝ) : ℝ :=
  let sigma := interp tau star.cdpp
  let k := rp * re / star.radius
  let snr := get_delta k * 1e6 / sigma
  let ntrn := star.dataspan * star.dutycycle / period
  snr * Real.sqrt ntrn

/-- Embedding of the frozen scipy distribution parameters
`pgam = gamma(4.65, loc=0.0, scale=0.98)`: the (shape, loc, scale) triple. -/
def pgam : ℝ × ℝ × ℝ := (4.65, 0, 0.98)

/-- Embedding of `get_pdet`: Equation (5) of Burke et al.  The scipy call
`pgam.cdf` is the abstract library function `gammaCdf` applied to the frozen
parameter triple `pgam`. -/
def get_pdet (gammaCdf : ℝ × ℝ × ℝ → ℝ → ℝ) (star : Star)
    (aor period rp e : ℝ) : ℝ :=
  let tau := get_duration period aor e * 24.0
  let mes := get_mes star period rp tau
  let mest := interp tau star.mesthres
  gammaCdf pgam (mes - 4.1 - (mest - 7.1))

/-- Embedding of `get_pwin`: Equation (6) of Burke et al., the window
function.  The boolean mask `(pw >= 0.0) * (M >= 2.0)` becomes a product of
0/1 indicators. -/
def get_pwin (star : Star) (period : ℝ) : ℝ :=
  let M := star.dataspan / period
  let f := star.dutycycle
  let omf := 1 - f
  let pw := 1 - omf ^ M - M * f * omf ^ (M - 1)
    - 0.5 * M * (M - 1) * f * f * omf ^ (M - 2)
  let msk := (if 0 ≤ pw then (1 : ℝ) else 0) * (if 2 ≤ M then (1 : ℝ) else 0)
  pw * msk

/-- Embedding of `get_pgeom`: the geometric transit probability, with the
boolean factor `(aor > 1.0)` as a 0/1 indicator. -/
def get_pgeom (aor e : ℝ) : ℝ :=
  1 / (aor * (1 - e * e)) * (if 1 < aor then (1 : ℝ) else 0)

/-- Embedding of `get_completeness`: combines detection efficiency, window
function and (optionally) geometric transit probability. -/
def get_completeness (gammaCdf : ℝ × ℝ × ℝ → ℝ → ℝ) (star : Star)
    (period rp e : ℝ) (with_geom : Bool) : ℝ :=
  let aor := get_a period star.mass / star.radius
  let pdet := get_pdet gammaCdf star aor period rp e
  let pwin := get_pwin star period
  if with_geom = false then pdet * pwin
  else pdet * pwin * get_pgeom aor e

/-- Embedding of `period_rng = (50, 300)`. -/
def period_rng : ℝ × ℝ := (50, 300)

/-- Embedding of `rp_rng = (0.75, 2.5)`. -/
def rp_rng : ℝ × ℝ := (0.75, 2.5)

/-- Embedding of `population_model`: the double power-law occurrence-rate
density.  The Python loop `for x, rng, n in zip((period, rp), (period_rng,
rp_rng), (beta, alpha)): v *= x**n * n1 / (rng[1]**n1 - rng[0]**n1)` is a
left fold over the two (variable, range, exponent) triples starting from
`exp(lnf0)`. -/
def population_model (theta : ℝ × ℝ × ℝ) (period rp : ℝ) : ℝ :=
  List.foldl
    (fun v xrn =>
      match xrn with
      | (x, rng, n) => v * (x ^ n * (n + 1) / (rng.2 ^ (n + 1) - rng.1 ^ (n + 1))))
    (Real.exp theta.1)
    [(period, period_rng, theta.2.1), (rp, rp_rng, theta.2.2)]

/-- Grid data consumed by `lnlike`: the period and radius grid node
coordinates (`period`, `rp` arrays of sizes `np`, `nr`, meshgridded in the
notebook) and the completeness map `comp` on the grid nodes. -/
structure GridData where
  np : ℕ
  nr : ℕ
  P : ℕ → ℝ
  R : ℕ → ℝ
  comp : ℕ → ℕ → ℝ

/-- Embedding of `vol = np.diff(period_grid, axis=0)[:, :-1] *
np.diff(rp_grid, axis=1)[:-1, :]`: the cell volume of grid cell (i, j). -/
def vol (g : GridData) (i j : ℕ) : ℝ :=
  (g.P (i + 1) - g.P i) * (g.R (j + 1) - g.R j)

/-- Embedding of `pop = population_model(theta, period_grid, rp_grid) * comp`
at grid node (i, j). -/
def popArr (g : GridData) (theta : ℝ × ℝ × ℝ) (i j : ℕ) : ℝ :=
  population_model theta (g.P i) (g.R j) * g.comp i j

/-- Embedding of `pop = 0.5 * (pop[:-1, :-1] + pop[1:, 1:])`: the mean of
the integrand at the two opposite corners of cell (i, j). -/
def popAvg (g : GridData) (theta : ℝ × ℝ × ℝ) (i j : ℕ) : ℝ :=
  0.5 * (popArr g theta i j + popArr g theta (i + 1) (j + 1))

/-- Embedding of `norm = np.sum(pop * vol)`: the quadrature of
occurrence density times completeness over the grid. -/
def normInt (g : GridData) (theta : ℝ × ℝ × ℝ) : ℝ :=
  ∑ i in Finset.range (g.np - 1), ∑ j in Finset.range (g.nr - 1),
    popAvg g theta i j * vol g i j

/-- Embedding of `lnlike`.  The detections (`koi_periods`, `koi_rps`) are
the list `ks` of (period, radius) pairs.  In the float computation the
result `ll` is non-finite exactly when the log of a non-positive density
enters the detection sum, so the `np.isfinite(ll)` guard is embedded as the
positivity of the density at every detection; the non-finite branch returns
the `EReal` bottom element (minus infinity). -/
def lnlike (g : GridData) (ks : List (ℝ × ℝ)) (theta : ℝ × ℝ × ℝ) : EReal :=
  if ∀ w ∈ ks, 0 < population_model theta w.1 w.2 then
    (((ks.map fun w => Real.log (population_model theta w.1 w.2)).sum
      - normInt g theta : ℝ) : EReal)
  else ⊥

/-- Embedding of `bounds = [(-5, 5), (-5, 5), (-5, 5)]`. -/
def bounds : List (ℝ × ℝ) := [(-5, 5), (-5, 5), (-5, 5)]

/-- Embedding of `lnprob`: the loop `for t, rng in zip(theta, bounds): if
not rng[0] < t < rng[1]: return -np.inf` returns minus infinity as soon as
one coordinate escapes its bound pair, i.e. the likelihood is returned iff
every zipped pair passes the strict double inequality. -/
def lnprob (g : GridData) (ks : List (ℝ × ℝ)) (theta : ℝ × ℝ × ℝ) : EReal :=
  if ∀ p ∈ List.zip [theta.1, theta.2.1, theta.2.2] bounds,
      p.2.1 < p.1 ∧ p.1 < p.2.2 then
    lnlike g ks theta
  else ⊥

/-- Concrete star used in witnesses and counterexamples: zero mass (a
domain-invalid value the spec claims is masked), unit radius, a 1000-day
data span at duty cycle 1, and flat noise/threshold curves. -/
def star0 : Star := ⟨1, 0, 1000, 1, [(0, 30), (100, 30)], [(0, 7.1), (100, 7.1)]⟩

/-- Concrete one-cell grid used in witnesses: node coordinates at the
corners of the declared domain and completeness 1 at every node. -/
def g0 : GridData :=
  ⟨2, 2, fun i => if i = 0 then 50 else 300,
    fun j => if j = 0 then 0.75 else 2.5, fun _ _ => 1⟩

/-! ## Claim C1 -/

/-- Claim C1, counterexample: at radius ratio `k = 1` the transit depth
computed by `get_delta` is `0.84 * (1.0874 + 1.0187)` and differs from the
value `0.84 * 1 ^ 2 * (1.0874 - 1.0187)` demanded by the claimed minus sign
convention. -/
theorem get_delta_minus_sign_false :
    get_delta 1 ≠ 0.84 * (1 : ℝ) ^ 2 * (1.0874 - 1.0187 * 1) := by
  unfold get_delta
  norm_num

/-- Claim C1, amended: for every radius ratio `k`, the transit depth
function returns `0.84 * k ^ 2 * (c + s * k)` with `c = 1.0874` and
`s = 1.0187`; the sign convention inside the parenthesis in the notebook is
plus (the paper-text convention), not minus. -/
theorem get_delta_plus_sign (k : ℝ) :
    get_delta k = 0.84 * k ^ 2 * (1.0874 + 1.0187 * k) := by
  unfold get_delta
  ring

/-! ## Claim C4 -/

/-- Claim C4: for every parameter vector `(lnf0, beta, alpha)` and every
period and radius, the occurrence density is `exp(lnf0)` times the product
over the two dimensions of `x ^ n * (n + 1) / (hi ^ (n+1) - lo ^ (n+1))`,
with the declared domains `[50, 300]` for period and `[0.75, 2.5]` for
radius. -/
theorem population_model_closed_form (theta : ℝ × ℝ × ℝ) (P R : ℝ) :
    population_model theta P R =
      Real.exp theta.1
        * (P ^ theta.2.1 * (theta.2.1 + 1)
            / ((300 : ℝ) ^ (theta.2.1 + 1) - (50 : ℝ) ^ (theta.2.1 + 1)))
        * (R ^ theta.2.2 * (theta.2.2 + 1)
            / ((2.5 : ℝ) ^ (theta.2.2 + 1) - (0.75 : ℝ) ^ (theta.2.2 + 1))) := by
  unfold population_model period_rng rp_rng
  simp [List.foldl]

/-! ## Claim C6 -/

/-- Claim C6: with `M = dataspan / period` and `f = dutycycle`, the window
function equals the raw expression
`1 - (1-f)^M - M*f*(1-f)^(M-1) - 0.5*M*(M-1)*f*f*(1-f)^(M-2)`
(the claim's `f^2` written as `f * f` as in the source) whenever `M ≥ 2`
and the raw expression is non-negative, and equals exactly 0 whenever
`M < 2` or the raw expression is negative.  The quantities `M`, `f`, `pw`
are bound by defining equations so the claim's formula appears literally. -/
theorem get_pwin_window_formula (star : Star) (period M f pw : ℝ)
    (hM : M = star.dataspan / period) (hf : f = star.dutycycle)
    (hpw : pw = 1 - (1 - f) ^ M - M * f * (1 - f) ^ (M - 1)
      - 0.5 * M * (M - 1) * f * f * (1 - f) ^ (M - 2)) :
    (2 ≤ M → 0 ≤ pw → get_pwin star period = pw) ∧
    ((M < 2 ∨ pw < 0) → get_pwin star period = 0) := by
  subst hM; subst hf; subst hpw
  simp only [get_pwin]
  constructor
  · intro h2 h0
    rw [if_pos h0, if_pos h2]
    ring
  · intro h
    rcases h with h | h
    · rw [if_neg (not_le.mpr h)]
      ring
    · rw [if_neg (not_le.mpr h)]
      ring

/-- Claim C6, witness: for the star with `dataspan = 1000`, `dutycycle = 1`
at period 100 we get `M = 10`, raw expression 1, so the window probability
is 1; at period 600 we get `M = 5/3 < 2`, so it is exactly 0. -/
theorem get_pwin_window_formula_witness :
    get_pwin star0 100 = 1 ∧ get_pwin star0 600 = 0 := by
  constructor
  · refine (get_pwin_window_formula star0 100 10 1 1 (by norm_num [star0])
      (by norm_num [star0]) ?_).1 (by norm_num) (by norm_num)
    rw [show ((1 : ℝ) - 1) = 0 by norm_num]
    rw [Real.zero_rpow (by norm_num : (10 : ℝ) ≠ 0),
      Real.zero_rpow (by norm_num : (10 : ℝ) - 1 ≠ 0),
      Real.zero_rpow (by norm_num : (10 : ℝ) - 2 ≠ 0)]
    norm_num
  · exact (get_pwin_window_formula star0 600 (5 / 3) 1
      (1 - (1 - 1) ^ ((5 : ℝ) / 3) - (5 / 3) * 1 * (1 - 1) ^ ((5 : ℝ) / 3 - 1)
        - 0.5 * (5 / 3) * ((5 / 3) - 1) * 1 * 1 * (1 - 1) ^ ((5 : ℝ) / 3 - 2))
      (by norm_num [star0]) (by norm_num [star0]) rfl).2 (Or.inl (by norm_num))

/-! ## Claim C5 -/

/-- Helper: the first coordinate of a list's head is at most the first
coordinate of its last element when consecutive first coordinates strictly
increase. -/
lemma chain_head_le_getLast :
    ∀ (t : List (ℝ × ℝ)) (q : ℝ × ℝ),
      List.Chain' (fun a b => a.1 < b.1) (q :: t) →
      q.1 ≤ ((q :: t).getLast (List.cons_ne_nil q t)).1 := by
  intro t
  induction t with
  | nil => intro q _; simp
  | cons r s ih =>
    intro q hch
    have h1 : q.1 < r.1 := (List.chain'_cons.mp hch).1
    have h2 := ih r (List.chain'_cons.mp hch).2
    rw [List.getLast_cons (List.cons_ne_nil r s)]
    exact le_of_lt (lt_of_lt_of_le h1 h2)

/-- Helper: `interp` clamps on the left: at or below the first tabulated
abscissa the first tabulated ordinate is returned. -/
lemma interp_head_clamp (x : ℝ) (p : ℝ × ℝ) (rest : List (ℝ × ℝ))
    (h : x ≤ p.1) : interp x (p :: rest) = p.2 := by
  cases rest with
  | nil => rfl
  | cons q t =>
    simp only [interp]
    rw [if_pos h]

/-- Helper: `interp` clamps on the right: strictly beyond the last
tabulated abscissa of a strictly increasing table the last tabulated
ordinate is returned. -/
lemma interp_last_clamp :
    ∀ (c : List (ℝ × ℝ)) (hne : c ≠ []) (x : ℝ),
      List.Chain' (fun a b => a.1 < b.1) c →
      (c.getLast hne).1 < x → interp x c = (c.getLast hne).2 := by
  intro c
  induction c with
  | nil => intro h; exact absurd rfl h
  | cons p t ih =>
    intro _ x hch hlt
    cases t with
    | nil => rfl
    | cons q s =>
      have hqs : List.Chain' (fun a b : ℝ × ℝ => a.1 < b.1) (q :: s) :=
        (List.chain'_cons.mp hch).2
      have hpq : p.1 < q.1 := (List.chain'_cons.mp hch).1
      have hql : q.1 ≤ ((q :: s).getLast (List.cons_ne_nil q s)).1 :=
        chain_head_le_getLast s q hqs
      rw [List.getLast_cons (List.cons_ne_nil q s)] at hlt ⊢
      have hx2 : ¬ x ≤ q.1 := not_le.mpr (lt_of_le_of_lt hql hlt)
      have hx1 : ¬ x ≤ p.1 :=
        not_le.mpr (lt_trans hpq (lt_of_le_of_lt hql hlt))
      simp only [interp]
      rw [if_neg hx1, if_neg hx2]
      exact ih (List.cons_ne_nil q s) x hqs hlt

/-- Claim C5: the detection efficiency is the Gamma(4.65, loc 0, scale
0.98) CDF (the abstract library function `gammaCdf` at that frozen
parameter triple) evaluated at `MES - 4.1 - (MES_threshold - 7.1)`, where
`MES = depth_ppm / noise_ppm * sqrt(numTransits)`,
`numTransits = dataspan * dutycycle / period`, the radius ratio is
`k = rp * 0.009171 / star.radius`, and both the noise and the threshold
curves are linearly interpolated at the transit duration (in hours) with
clamping at the curve endpoints (the second and third conjuncts: at or
before the first point the first value is returned, and strictly beyond
the last point of a strictly increasing table the last value is
returned). -/
theorem get_pdet_gamma_formula :
    (∀ (gammaCdf : ℝ × ℝ × ℝ → ℝ → ℝ) (star : Star) (aor period rp e : ℝ),
      get_pdet gammaCdf star aor period rp e =
        gammaCdf (4.65, 0, 0.98)
          (get_delta (rp * 0.009171 / star.radius) * 1e6
              / interp (get_duration period aor e * 24.0) star.cdpp
              * Real.sqrt (star.dataspan * star.dutycycle / period)
            - 4.1 - (interp (get_duration period aor e * 24.0) star.mesthres - 7.1))) ∧
    (∀ (x : ℝ) (p : ℝ × ℝ) (rest : List (ℝ × ℝ)),
      x ≤ p.1 → interp x (p :: rest) = p.2) ∧
    (∀ (c : List (ℝ × ℝ)) (hne : c ≠ []) (x : ℝ),
      List.Chain' (fun a b => a.1 < b.1) c →
      (c.getLast hne).1 < x → interp x c = (c.getLast hne).2) := by
  refine ⟨?_, interp_head_clamp, interp_last_clamp⟩
  intro gammaCdf star aor period rp e
  simp only [get_pdet, get_mes, re, pgam]

/-- Claim C5, witness: the detection-efficiency formula instantiated at a
concrete star (the CDF parameter instantiated with a projection function),
and the two clamping facts evaluated on the concrete two-point table
`[(0, 30), (10, 40)]`. -/
theorem get_pdet_gamma_formula_witness :
    get_pdet (fun _ x => x) star0 2 100 1 0 =
      (fun (_ : ℝ × ℝ × ℝ) (x : ℝ) => x) (4.65, 0, 0.98)
        (get_delta (1 * 0.009171 / star0.radius) * 1e6
            / interp (get_duration 100 2 0 * 24.0) star0.cdpp
            * Real.sqrt (star0.dataspan * star0.dutycycle / 100)
          - 4.1 - (interp (get_duration 100 2 0 * 24.0) star0.mesthres - 7.1)) ∧
    interp (-1) [((0 : ℝ), (30 : ℝ)), (10, 40)] = 30 ∧
    interp 20 [((0 : ℝ), (30 : ℝ)), (10, 40)] = 40 := by
  refine ⟨get_pdet_gamma_formula.1 (fun _ x => x) star0 2 100 1 0, ?_, ?_⟩
  · exact get_pdet_gamma_formula.2.1 (-1) ((0 : ℝ), (30 : ℝ)) [(10, 40)] (by norm_num)
  · have h := get_pdet_gamma_formula.2.2 [((0 : ℝ), (30 : ℝ)), (10, 40)]
      (by simp) 20 (by norm_num [List.chain'_cons]) (by norm_num)
    simpa using h

/-! ## Claim C7 -/

/-- Claim C7: for every scaled semi-major axis `aor` and eccentricity `e`,
the geometric transit probability equals `1 / (aor * (1 - e^2))` when
`aor > 1`, and equals exactly 0 when `aor ≤ 1`. -/
theorem get_pgeom_cases (aor e : ℝ) :
    (1 < aor → get_pgeom aor e = 1 / (aor * (1 - e ^ 2))) ∧
    (aor ≤ 1 → get_pgeom aor e = 0) := by
  constructor
  · intro h
    unfold get_pgeom
    rw [if_pos h]
    ring
  · intro h
    unfold get_pgeom
    rw [if_neg (not_lt.mpr h)]
    ring

/-- Claim C7, witness: the theorem evaluated at `aor = 2, e = 0` (transiting
regime) and at `aor = 1/2, e = 0` (grazing regime). -/
theorem get_pgeom_cases_witness :
    get_pgeom 2 0 = 1 / 2 ∧ get_pgeom (1 / 2) 0 = 0 := by
  constructor
  · have h := (get_pgeom_cases 2 0).1 (by norm_num)
    rw [h]; norm_num
  · exact (get_pgeom_cases (1 / 2) 0).2 (by norm_num)

/-! ## Claim C8 -/

/-- Helper: the window function is never negative — the mask multiplies the
raw expression by 0 exactly when it is negative. -/
lemma get_pwin_nonneg (star : Star) (period : ℝ) : 0 ≤ get_pwin star period := by
  simp only [get_pwin]
  split_ifs with h0 h2
  · simpa using h0
  · simp
  · simp
  · simp

/-- Helper: the window function never exceeds 1 for a duty cycle in
`[0, 1]`: in the unmasked branch all three subtracted terms are
non-negative. -/
lemma get_pwin_le_one (star : Star) (period : ℝ)
    (hf0 : 0 ≤ star.dutycycle) (hf1 : star.dutycycle ≤ 1) :
    get_pwin star period ≤ 1 := by
  simp only [get_pwin]
  split_ifs with h0 h2
  · have homf : (0 : ℝ) ≤ 1 - star.dutycycle := by linarith
    have hM : (0 : ℝ) ≤ star.dataspan / period := by linarith
    have hA : 0 ≤ (1 - star.dutycycle) ^ (star.dataspan / period) :=
      Real.rpow_nonneg homf _
    have hB : 0 ≤ star.dataspan / period * star.dutycycle
        * (1 - star.dutycycle) ^ (star.dataspan / period - 1) :=
      mul_nonneg (mul_nonneg hM hf0) (Real.rpow_nonneg homf _)
    have hC : 0 ≤ 0.5 * (star.dataspan / period) * (star.dataspan / period - 1)
        * star.dutycycle * star.dutycycle
        * (1 - star.dutycycle) ^ (star.dataspan / period - 2) :=
      mul_nonneg (mul_nonneg (mul_nonneg (mul_nonneg (mul_nonneg
        (by norm_num) hM) (by linarith)) hf0) hf0) (Real.rpow_nonneg homf _)
    calc _ = 1 - (1 - star.dutycycle) ^ (star.dataspan / period)
        - star.dataspan / period * star.dutycycle
          * (1 - star.dutycycle) ^ (star.dataspan / period - 1)
        - 0.5 * (star.dataspan / period) * (star.dataspan / period - 1)
          * star.dutycycle * star.dutycycle
          * (1 - star.dutycycle) ^ (star.dataspan / period - 2) := by ring
    _ ≤ 1 := by linarith
  · simp
  · simp
  · simp

/-- Helper: the detection efficiency inherits the bounds of the library
CDF. -/
lemma get_pdet_bounds (gammaCdf : ℝ × ℝ × ℝ → ℝ → ℝ) (star : Star)
    (aor period rp e : ℝ)
    (hcdf : ∀ x, 0 ≤ gammaCdf pgam x ∧ gammaCdf pgam x ≤ 1) :
    0 ≤ get_pdet gammaCdf star aor period rp e ∧
    get_pdet gammaCdf star aor period rp e ≤ 1 := by
  simp only [get_pdet]
  exact hcdf _

/-- Claim C8: for a star whose duty cycle lies in `[0, 1]` (the data-model
invariant actually used by the code path) and any positive period and
radius, the detection probability without the geometric factor lies in
`[0, 1]`, provided the library Gamma CDF at the frozen parameters takes
values in `[0, 1]` (the defining property of a CDF, taken as a hypothesis
on the abstracted scipy function). -/
theorem get_completeness_unit_interval (gammaCdf : ℝ × ℝ × ℝ → ℝ → ℝ)
    (star : Star) (period rp : ℝ)
    (hcdf : ∀ x, 0 ≤ gammaCdf pgam x ∧ gammaCdf pgam x ≤ 1)
    (hf0 : 0 ≤ star.dutycycle) (hf1 : star.dutycycle ≤ 1)
    (_hp : 0 < period) (_hr : 0 < rp) :
    0 ≤ get_completeness gammaCdf star period rp 0 false ∧
    get_completeness gammaCdf star period rp 0 false ≤ 1 := by
  have hpdet := get_pdet_bounds gammaCdf star
    (get_a period star.mass / star.radius) period rp 0 hcdf
  have hpwin0 := get_pwin_nonneg star period
  have hpwin1 := get_pwin_le_one star period hf0 hf1
  simp only [get_completeness, if_pos rfl]
  exact ⟨mul_nonneg hpdet.1 hpwin0, mul_le_one₀ hpdet.2 hpwin0 hpwin1⟩

/-- Claim C8, witness: the bounds evaluated for a concrete CDF stand-in
(constant 1/2), the concrete star `star0` and period 100, radius 1. -/
theorem get_completeness_unit_interval_witness :
    0 ≤ get_completeness (fun _ _ => 1 / 2) star0 100 1 0 false ∧
    get_completeness (fun _ _ => 1 / 2) star0 100 1 0 false ≤ 1 :=
  get_completeness_unit_interval (fun _ _ => 1 / 2) star0 100 1
    (fun _ => by norm_num) (by norm_num [star0]) (by norm_num [star0])
    (by norm_num) (by norm_num)

/-! ## Claim C9 -/

/-- Helper: the approximate transit depth is monotone non-decreasing on
non-negative radius ratios. -/
lemma get_delta_mono {k1 k2 : ℝ} (h0 : 0 ≤ k1) (h : k1 ≤ k2) :
    get_delta k1 ≤ get_delta k2 := by
  unfold get_delta
  have h2 : 0 ≤ k2 := le_trans h0 h
  have hA : k1 * k1 ≤ k2 * k2 := mul_le_mul h h h0 h2
  have hB : 1.0874 + 1.0187 * k1 ≤ 1.0874 + 1.0187 * k2 := by nlinarith
  have hB0 : 0 ≤ 1.0874 + 1.0187 * k1 := by nlinarith
  have := mul_le_mul hA hB hB0 (mul_nonneg h2 h2)
  nlinarith

/-- Helper: the geometric transit probability is non-negative whenever
`e * e ≤ 1`. -/
lemma get_pgeom_nonneg (aor e : ℝ) (he : e * e ≤ 1) : 0 ≤ get_pgeom aor e := by
  unfold get_pgeom
  split_ifs with h
  · rw [mul_one]
    exact one_div_nonneg.mpr (mul_nonneg (by linarith) (by linarith))
  · simp

/-- Claim C9: with `aor > 1` fixed (and, as data-model invariants, a
positive stellar radius, a positive interpolated noise value at the transit
duration, an eccentricity with `e² ≤ 1`, and a monotone library CDF),
the detection probability is monotone non-decreasing in the planet radius:
for radii `0 ≤ r1 ≤ r2` the completeness at `r1` is at most the
completeness at `r2`, with or without the geometric factor. -/
theorem get_completeness_mono_radius (gammaCdf : ℝ × ℝ × ℝ → ℝ → ℝ)
    (star : Star) (period e r1 r2 : ℝ) (wg : Bool)
    (hmono : Monotone (gammaCdf pgam))
    (hrad : 0 < star.radius)
    (hsig : 0 < interp
      (get_duration period (get_a period star.mass / star.radius) e * 24.0)
      star.cdpp)
    (_haor : 1 < get_a period star.mass / star.radius)
    (he : e * e ≤ 1)
    (h0 : 0 ≤ r1) (h12 : r1 ≤ r2) :
    get_completeness gammaCdf star period r1 e wg ≤
      get_completeness gammaCdf star period r2 e wg := by
  have hre : (0 : ℝ) ≤ re := by norm_num [re]
  have hk0 : 0 ≤ r1 * re / star.radius :=
    div_nonneg (mul_nonneg h0 hre) (le_of_lt hrad)
  have hk : r1 * re / star.radius ≤ r2 * re / star.radius := by
    apply div_le_div_of_nonneg_right ?_ (le_of_lt hrad)
    exact mul_le_mul_of_nonneg_right h12 hre
  have hdelta := get_delta_mono hk0 hk
  have hmes : get_mes star period r1
        (get_duration period (get_a period star.mass / star.radius) e * 24.0) ≤
      get_mes star period r2
        (get_duration period (get_a period star.mass / star.radius) e * 24.0) := by
    simp only [get_mes]
    apply mul_le_mul_of_nonneg_right ?_ (Real.sqrt_nonneg _)
    apply div_le_div_of_nonneg_right ?_ (le_of_lt hsig)
    exact mul_le_mul_of_nonneg_right hdelta (by norm_num)
  have hpdet : get_pdet gammaCdf star (get_a period star.mass / star.radius)
        period r1 e ≤
      get_pdet gammaCdf star (get_a period star.mass / star.radius)
        period r2 e := by
    simp only [get_pdet]
    exact hmono (by linarith)
  have hpwin := get_pwin_nonneg star period
  have hpgeom := get_pgeom_nonneg (get_a period star.mass / star.radius) e he
  cases wg with
  | false =>
    simp only [get_completeness, if_pos rfl]
    exact mul_le_mul_of_nonneg_right hpdet hpwin
  | true =>
    simp only [get_completeness, if_neg (by simp : ¬ (true = false))]
    exact mul_le_mul_of_nonneg_right
      (mul_le_mul_of_nonneg_right hpdet hpwin) hpgeom

/-- Helper: interpolation of a table whose two ordinates agree yields that
common ordinate at every abscissa. -/
lemma interp_flat_pair (x a b c : ℝ) : interp x [(a, c), (b, c)] = c := by
  simp only [interp]
  split_ifs <;> ring_nf

/-- Helper: the semi-major-axis constant exceeds 1. -/
lemma one_lt_Go4pi : 1 < Go4pi := by
  unfold Go4pi
  rw [lt_div_iff₀ (by positivity)]
  nlinarith [Real.pi_lt_d2, Real.pi_gt_three]

/-- Helper: the star `star9` used in the monotonicity witness. -/
def star9 : Star := ⟨1, 1, 4, 1, [(0, 30), (1000, 30)], [(0, 7.1), (1000, 7.1)]⟩

/-- Helper: at period 1 and unit mass and radius, the scaled semi-major
axis exceeds 1. -/
lemma one_lt_aor9 : 1 < get_a 1 star9.mass / star9.radius := by
  have h1 : get_a 1 star9.mass = Go4pi ^ ((1 : ℝ) / 3) := by
    unfold get_a
    norm_num [star9]
  rw [h1]
  have : (1 : ℝ) < Go4pi ^ ((1 : ℝ) / 3) :=
    (Real.one_lt_rpow_iff_of_pos
      (lt_trans zero_lt_one one_lt_Go4pi)).mpr
      (Or.inl ⟨one_lt_Go4pi, by norm_num⟩)
  simpa [star9] using this

/-- Claim C9, witness: monotonicity applied at the concrete star `star9`
(period 1, eccentricity 0, radii 1 ≤ 2, no geometric factor) with the
constant-zero stand-in for the library CDF. -/
theorem get_completeness_mono_radius_witness :
    get_completeness (fun _ _ => 0) star9 1 0 1 false ≤
      get_completeness (fun _ _ => 0) star9 1 0 2 false := by
  apply get_completeness_mono_radius (fun _ _ => 0) star9 1 0 1 2 false
    monotone_const (by norm_num [star9]) ?_ one_lt_aor9 (by norm_num)
    (by norm_num) (by norm_num)
  have : interp (get_duration 1 (get_a 1 star9.mass / star9.radius) 0 * 24.0)
      star9.cdpp = 30 := by
    simp only [star9]
    exact interp_flat_pair _ 0 1000 30
  rw [this]
  norm_num

/-! ## Claim C2 -/

/-- Helper: at period 100 the window probability of `star0` is exactly 1
(its duty cycle is 1, so every subtracted term vanishes). -/
lemma get_pwin_star0_100 : get_pwin star0 100 = 1 := by
  have h1 : star0.dataspan / 100 = 10 := by norm_num [star0]
  have h2 : star0.dutycycle = 1 := by norm_num [star0]
  simp only [get_pwin, h1, h2]
  rw [show ((1 : ℝ) - 1) = 0 by norm_num]
  rw [Real.zero_rpow (by norm_num : (10 : ℝ) ≠ 0),
    Real.zero_rpow (by norm_num : (10 : ℝ) - 1 ≠ 0),
    Real.zero_rpow (by norm_num : (10 : ℝ) - 2 ≠ 0)]
  norm_num

/-- Helper: the zero-mass star `star0` has detection probability 1 (not 0)
at period 100 and radius 1 when the library CDF is the constant 1: no
input-validity masking occurs in `get_completeness`. -/
lemma star0_completeness :
    get_completeness (fun _ _ => (1 : ℝ)) star0 100 1 0 false = 1 := by
  simp only [get_completeness, get_pdet, if_pos rfl]
  rw [get_pwin_star0_100]
  norm_num

/-- Claim C2, counterexample: it is not the case that a non-positive (or
non-finite) stellar mass or radius forces the detection probability to
zero: the zero-mass star `star0` at period 100, radius 1, `e = 0`, without
the geometric factor, has detection probability 1 for a CDF that is
constantly 1 (and a nonzero value for the actual scipy CDF, whose argument
is large and positive there). -/
theorem completeness_nonpositive_mass_not_masked :
    ¬ (∀ (gammaCdf : ℝ × ℝ × ℝ → ℝ → ℝ) (s : Star) (period rp e : ℝ)
        (wg : Bool),
        s.mass ≤ 0 ∨ s.radius ≤ 0 →
        get_completeness gammaCdf s period rp e wg = 0) := by
  intro h
  have h0 := h (fun _ _ => 1) star0 100 1 0 false (Or.inl (by norm_num [star0]))
  rw [star0_completeness] at h0
  exact one_ne_zero h0

/-- Claim C2, amended: `get_completeness` applies no input-validity mask at
all.  The only zero-masking in the detection-probability path is the
geometric regime (`aor ≤ 1` forces `pgeom = 0`) and the window regime
(`M < 2` forces `pwin = 0`); a star with non-positive mass can yield a
nonzero detection probability. -/
theorem completeness_masking_geom_window_only :
    (∀ aor e : ℝ, aor ≤ 1 → get_pgeom aor e = 0) ∧
    (∀ (s : Star) (period : ℝ), s.dataspan / period < 2 →
      get_pwin s period = 0) ∧
    (∃ (gammaCdf : ℝ × ℝ × ℝ → ℝ → ℝ) (s : Star) (period rp e : ℝ),
      s.mass ≤ 0 ∧ get_completeness gammaCdf s period rp e false ≠ 0) := by
  refine ⟨fun aor e h => ?_, fun s period h => ?_,
    ⟨fun _ _ => 1, star0, 100, 1, 0, by norm_num [star0],
      by rw [star0_completeness]; norm_num⟩⟩
  · unfold get_pgeom
    rw [if_neg (not_lt.mpr h)]
    ring
  · simp only [get_pwin]
    rw [if_neg (not_le.mpr h)]
    ring

/-- Claim C2, amended witness: the geometric mask evaluated at `aor = 1/2`
and the window mask evaluated for `star0` at period 600 (where
`M = 5/3 < 2`). -/
theorem completeness_masking_witness :
    get_pgeom (1 / 2) 0 = 0 ∧ get_pwin star0 600 = 0 :=
  ⟨completeness_masking_geom_window_only.1 (1 / 2) 0 (by norm_num),
    completeness_masking_geom_window_only.2.1 star0 600 (by norm_num [star0])⟩

/-! ## Claim C3 -/

/-- Claim C3: whenever the occurrence density is positive at every observed
detection (the exact situation in which the float result is finite), the
log-likelihood equals the sum over detections of the log occurrence density
minus the quadrature of density times completeness over the grid — per
cell, the mean of the integrand at the cell's two opposite corners times
the cell volume formed from the boundary differences — and otherwise (the
non-finite case) it is minus infinity. -/
theorem lnlike_decomposition (g : GridData) (ks : List (ℝ × ℝ))
    (theta : ℝ × ℝ × ℝ) :
    ((∀ w ∈ ks, 0 < population_model theta w.1 w.2) →
      lnlike g ks theta =
        (((ks.map fun w => Real.log (population_model theta w.1 w.2)).sum
          - ∑ i in Finset.range (g.np - 1), ∑ j in Finset.range (g.nr - 1),
              0.5 * (population_model theta (g.P i) (g.R j) * g.comp i j
                + population_model theta (g.P (i + 1)) (g.R (j + 1))
                  * g.comp (i + 1) (j + 1))
              * ((g.P (i + 1) - g.P i) * (g.R (j + 1) - g.R j)) : ℝ) : EReal)) ∧
    ((¬ ∀ w ∈ ks, 0 < population_model theta w.1 w.2) →
      lnlike g ks theta = (⊥ : EReal)) := by
  constructor
  · intro h
    unfold lnlike
    rw [if_pos h]
    rfl
  · intro h
    unfold lnlike
    rw [if_neg h]

/-- Helper: the occurrence density at the flat parameter vector `(0, 0, 0)`
is positive at the detection `(100, 1)`. -/
lemma pm_theta0_pos : (0 : ℝ) < population_model (0, 0, 0) 100 1 := by
  unfold population_model period_rng rp_rng
  simp only [List.foldl]
  norm_num [Real.rpow_zero, Real.rpow_one, Real.exp_zero]

/-- Claim C3, witness: the decomposition at the one-cell grid `g0`, the
single detection `(100, 1)` and the flat parameter vector. -/
theorem lnlike_decomposition_witness :
    lnlike g0 [((100 : ℝ), (1 : ℝ))] (0, 0, 0) =
      ((([((100 : ℝ), (1 : ℝ))].map fun w =>
          Real.log (population_model (0, 0, 0) w.1 w.2)).sum
        - ∑ i in Finset.range (g0.np - 1), ∑ j in Finset.range (g0.nr - 1),
            0.5 * (population_model (0, 0, 0) (g0.P i) (g0.R j) * g0.comp i j
              + population_model (0, 0, 0) (g0.P (i + 1)) (g0.R (j + 1))
                * g0.comp (i + 1) (j + 1))
            * ((g0.P (i + 1) - g0.P i) * (g0.R (j + 1) - g0.R j)) : ℝ) : EReal) :=
  (lnlike_decomposition g0 [((100 : ℝ), (1 : ℝ))] (0, 0, 0)).1
    (by
      intro w hw
      rw [List.mem_singleton] at hw
      subst hw
      exact pm_theta0_pos)

/-! ## Claim C10 -/

/-- Claim C10: the posterior returns minus infinity as soon as one of the
three parameters leaves its declared (strict) bound interval `(-5, 5)`, and
otherwise returns exactly the log-likelihood; as a total function into
`EReal` it raises nothing. -/
theorem lnprob_prior_box (g : GridData) (ks : List (ℝ × ℝ))
    (theta : ℝ × ℝ × ℝ) :
    ((¬ ((-5 < theta.1 ∧ theta.1 < 5) ∧ (-5 < theta.2.1 ∧ theta.2.1 < 5) ∧
        (-5 < theta.2.2 ∧ theta.2.2 < 5))) → lnprob g ks theta = (⊥ : EReal)) ∧
    (((-5 < theta.1 ∧ theta.1 < 5) ∧ (-5 < theta.2.1 ∧ theta.2.1 < 5) ∧
        (-5 < theta.2.2 ∧ theta.2.2 < 5)) →
      lnprob g ks theta = lnlike g ks theta) := by
  have hiff : (∀ p ∈ List.zip [theta.1, theta.2.1, theta.2.2] bounds,
      p.2.1 < p.1 ∧ p.1 < p.2.2) ↔
      ((-5 < theta.1 ∧ theta.1 < 5) ∧ (-5 < theta.2.1 ∧ theta.2.1 < 5) ∧
        (-5 < theta.2.2 ∧ theta.2.2 < 5)) := by
    simp [bounds]
  constructor
  · intro h
    unfold lnprob
    rw [if_neg fun hc => h (hiff.mp hc)]
  · intro h
    unfold lnprob
    rw [if_pos (hiff.mpr h)]

/-- Claim C10, witness: out of the box at `theta = (6, 0, 0)` the posterior
is minus infinity; inside the box at `theta = (0, 0, 0)` it equals the
log-likelihood. -/
theorem lnprob_prior_box_witness :
    lnprob g0 [((100 : ℝ), (1 : ℝ))] (6, 0, 0) = (⊥ : EReal) ∧
    lnprob g0 [((100 : ℝ), (1 : ℝ))] (0, 0, 0) =
      lnlike g0 [((100 : ℝ), (1 : ℝ))] (0, 0, 0) :=
  ⟨(lnprob_prior_box g0 [((100 : ℝ), (1 : ℝ))] (6, 0, 0)).1 (by norm_num),
    (lnprob_prior_box g0 [((100 : ℝ), (1 : ℝ))] (0, 0, 0)).2 (by norm_num)⟩

end Exopop
